import Mathlib

/-!
Shallow embedding of the in-memory virtual file subsystem of
`src/deserialize.rs` (the `MemFile` buffer, the `HookedFile` record and its
callback entry points `c_read`, `c_write`, `c_truncate`, `c_size`,
`c_file_control`, plus the `serialize` / `deserialize_hook` /
`serialize_rc` bridge), and proofs of the specified properties.

Modelling conventions:
* bytes are `Nat` (the source uses `u8`; no claim depends on the 256 bound);
* a `Vec<u8>` is a `List Nat` (its contents, of length `len()`) together
  with its capacity;
* `Rc<MemFile>` is the buffer plus a strong-count field `rc`;
  `Rc::get_mut` succeeds exactly when the count is 1;
* `Vec::reserve(additional)` is modelled by its documented guarantee:
  the new capacity is at least `len + additional` and never shrinks, i.e.
  `cap' = max cap (len + additional)`;
* `Vec::set_len(n)` with `n` above the current length exposes, in the
  source, spare-capacity bytes that the surrounding code has already
  written (gap zero-fill) or immediately overwrites (payload copy); the
  model pads with zeros, which the same stores then overwrite, so no
  modelled byte differs from a byte the source actually wrote;
* a Rust panic inside an entry point is caught by `panic::catch_unwind`
  and converted to `SQLITE_ERROR`; the model returns that code at the
  places the source would panic (`MemFile::as_mut_slice` on `ReadOnly`);
* `amt`/`ofst` arrive from SQLite as non-negative quantities
  (`try_into().unwrap()` in `c_read`, plain `as usize` in `c_write`), so
  they are modelled as `Nat`.
-/

namespace Rusqlite

/-- `SQLITE_OK` (sqlite3.h). -/
def SQLITE_OK : Nat := 0

/-- `SQLITE_ERROR` (sqlite3.h), produced by the `catch_unwind` wrappers. -/
def SQLITE_ERROR : Nat := 1

/-- `SQLITE_READONLY` (sqlite3.h). -/
def SQLITE_READONLY : Nat := 8

/-- `SQLITE_FULL` (sqlite3.h). -/
def SQLITE_FULL : Nat := 13

/-- `SQLITE_NOTFOUND` (sqlite3.h). -/
def SQLITE_NOTFOUND : Nat := 12

/-- `SQLITE_IOERR_SHORT_READ = SQLITE_IOERR | (2 << 8)` (sqlite3.h). -/
def SQLITE_IOERR_SHORT_READ : Nat := 522

/-- `ptr::copy_nonoverlapping(p.as_ptr(), l.as_mut_ptr().add(ofst), p.len())`:
store the bytes `p` into `l` starting at offset `ofst` (callers ensure
`ofst + p.length ≤ l.length`). -/
def listStore (l : List Nat) (ofst : Nat) (p : List Nat) : List Nat :=
  l.take ofst ++ p ++ l.drop (ofst + p.length)

/-- Ownership modes of `MemFile` (src/deserialize.rs, `enum MemFile`):
`Owned(Vec<u8>)`, `Resizable(&mut Vec<u8>)`, `ReadOnly(&[u8])`. -/
inductive Mode where
  | owned
  | resizable
  | readOnly
deriving DecidableEq, Repr

/-- `MemFile`: the byte contents of one in-memory database file together
with its ownership mode.  `vecCap` is the capacity of the backing `Vec`
for the `owned` / `resizable` modes (meaningless for `readOnly`, whose
`cap()` is its length). -/
structure MemFile where
  mode : Mode
  data : List Nat
  vecCap : Nat
deriving DecidableEq, Repr

namespace MemFile

/-- `MemFile::len` — current file length. -/
def len (f : MemFile) : Nat := f.data.length

/-- `MemFile::cap` — `Vec::capacity` for the vector modes, the slice
length for `ReadOnly`. -/
def cap (f : MemFile) : Nat :=
  match f.mode with
  | .readOnly => f.data.length
  | _ => f.vecCap

/-- `MemFile::writable` — true except for `ReadOnly`. -/
def writable (f : MemFile) : Bool :=
  match f.mode with
  | .readOnly => false
  | _ => true

/-- `MemFile::reserve_additional` — `Vec::reserve(additional)` for the
vector modes (returns `true`), impossible for `ReadOnly` (returns
`false`, modelled as `none`).  `Vec::reserve` guarantees
`capacity ≥ len + additional` and never shrinks. -/
def reserveAdditional (f : MemFile) (additional : Nat) : Option MemFile :=
  match f.mode with
  | .readOnly => none
  | _ => some { f with vecCap := max f.vecCap (f.data.length + additional) }

/-- `MemFile::set_len` — truncates in place when shrinking; when growing,
the newly exposed bytes are spare-capacity bytes (zeros stand in for
them; every caller has written or immediately overwrites them). -/
def setLen (f : MemFile) (n : Nat) : MemFile :=
  { f with data := f.data.take n ++ List.replicate (n - f.data.length) 0 }

/-- The payload copy at the end of `c_write`: `ptr::copy_nonoverlapping`
of `p` into the buffer at offset `ofst`. -/
def storeAt (f : MemFile) (ofst : Nat) (p : List Nat) : MemFile :=
  { f with data := listStore f.data ofst p }

end MemFile

/-- `HookedFile`: the `sqlite3_file` subclass installed at a schema slot.
`rc` is `Rc::strong_count(&self.data)` (at least 1 in any live state),
`sizeMax` is `size_max`, `memoryMapped` the outstanding map-lease count. -/
structure HookedFile where
  data : MemFile
  rc : Nat
  sizeMax : Nat
  memoryMapped : Nat
deriving DecidableEq, Repr

namespace HookedFile

/-- `HookedFile::get_mut` — mutable access to the buffer, only when it is
writable and the `Rc` is exclusively held. -/
def getMut (h : HookedFile) : Option MemFile :=
  if ¬ h.data.writable then none
  else if h.rc = 1 then some h.data else none

end HookedFile

/-- The gap zero-fill in `c_write` (src/deserialize.rs line 459-461):
when writing past the end at `ofst > sz`, the bytes `[sz, ofst)` are
zeroed (`ptr::write_bytes` into spare capacity). -/
def gapZeroFill (d : MemFile) (ofst : Nat) : MemFile :=
  if d.data.length < ofst then
    { d with data := d.data ++ List.replicate (ofst - d.data.length) 0 }
  else d

/-- Tail of `c_write` after the growth checks have passed (the region of
src/deserialize.rs lines 459-465): zero-fill the gap `[sz, ofst)` when
`ofst > sz`, `set_len(ofst + amt)`, copy the payload at `ofst`.  The
source reaches this point only with a writable buffer; were the buffer
`ReadOnly`, `as_mut_ptr` would panic and `catch_unwind` would yield
`SQLITE_ERROR`. -/
def writeExtend (h : HookedFile) (d : MemFile) (buf : List Nat) (ofst : Nat) :
    Nat × HookedFile :=
  if d.writable then
    (SQLITE_OK, { h with
      data := ((gapZeroFill d ofst).setLen (ofst + buf.length)).storeAt ofst buf })
  else (SQLITE_ERROR, h)

/-- `c_write` (src/deserialize.rs lines 430-471).  `buf` is the payload,
so `amt = buf.length`.  Mirrors the source: `Rc::get_mut` fails with
`SQLITE_READONLY` unless the count is 1; a write past the current length
grows, checking the memory-map lease, `reserve_additional` and
`size_max` (on the capacity after reserving) in that order; otherwise
the payload is copied in place. -/
def c_write (h : HookedFile) (buf : List Nat) (ofst : Nat) : Nat × HookedFile :=
  if h.rc ≠ 1 then (SQLITE_READONLY, h)
  else if h.data.len < ofst + buf.length then
    if h.data.cap < ofst + buf.length then
      if 0 < h.memoryMapped then (SQLITE_FULL, h)
      else
        match h.data.reserveAdditional (ofst + buf.length - h.data.cap) with
        | none => (SQLITE_FULL, h)
        | some d1 =>
          if h.sizeMax < d1.cap then (SQLITE_FULL, { h with data := d1 })
          else writeExtend h d1 buf ofst
    else writeExtend h h.data buf ofst
  else
    if h.data.writable then
      (SQLITE_OK, { h with data := { h.data with data := listStore h.data.data ofst buf } })
    else (SQLITE_ERROR, h)

/-- `c_read` (src/deserialize.rs lines 402-428): returns the status code
and the `amt` bytes written to the output buffer.  Reading past the end
zero-fills the whole output, copies the `len - ofst` available bytes
when `ofst < len`, and reports `SQLITE_IOERR_SHORT_READ`. -/
def c_read (h : HookedFile) (amt ofst : Nat) : Nat × List Nat :=
  if h.data.len < ofst + amt then
    (SQLITE_IOERR_SHORT_READ,
      if ofst < h.data.len then
        listStore (List.replicate amt 0) 0 (h.data.data.drop ofst)
      else List.replicate amt 0)
  else (SQLITE_OK, (h.data.data.drop ofst).take amt)

/-- `c_truncate` (src/deserialize.rs lines 477-495): requires exclusive
writable access via `HookedFile::get_mut` (else `SQLITE_FULL`); a size
above the current length yields `SQLITE_FULL`, otherwise `set_len`. -/
def c_truncate (h : HookedFile) (size : Nat) : Nat × HookedFile :=
  match h.getMut with
  | some d =>
    if d.len < size then (SQLITE_FULL, h)
    else (SQLITE_OK, { h with data := d.setLen size })
  | none => (SQLITE_FULL, h)

/-- `c_size` (src/deserialize.rs lines 501-511): writes the current
length to the output and returns `SQLITE_OK`. -/
def c_size (h : HookedFile) : Nat × Nat :=
  (SQLITE_OK, h.data.len)

/-- The `SQLITE_FCNTL_SIZE_LIMIT` arm of `c_file_control`
(src/deserialize.rs lines 540-553): reads the requested limit from the
argument, restores the previous cap when negative, clamps to the current
length when below it, adopts it otherwise; stores the adopted value in
`size_max`, writes it back, returns `SQLITE_OK`.  Result:
(status, new record, value written back to the argument). -/
def fileControlSizeLimit (h : HookedFile) (arg : Int) : Nat × HookedFile × Int :=
  let limit : Int :=
    if arg < (h.data.len : Int) then
      if arg < 0 then (h.sizeMax : Int) else (h.data.len : Int)
    else arg
  (SQLITE_OK, { h with sizeMax := limit.toNat }, limit)

/-- `Connection::serialize` on a schema slot (src/deserialize.rs lines
46-54), hooked-file path: when the slot holds a hooked file, the
serialization is a fresh copy of its bytes (`as_slice().to_vec()`);
`none` models a `DatabaseName` that does not exist. -/
def serializeSlot (slot : Option HookedFile) : Option (List Nat) :=
  slot.map fun h => h.data.data

/-- `Connection::deserialize` / `deserialize_hook` (src/deserialize.rs
lines 40-42 and 94-120): installs a `HookedFile` owning the given bytes
(`MemFile::Owned(data)`), with `memory_mapped = 0`, a single reference,
and the `size_max` captured from the underlying memdb slot.  `vcap` is
the capacity of the caller's vector. -/
def deserializeHook (v : List Nat) (vcap sizeMaxInit : Nat) : HookedFile :=
  { data := { mode := .owned, data := v, vecCap := vcap }
    rc := 1
    sizeMax := sizeMaxInit
    memoryMapped := 0 }

/-- `BorrowingConnection::serialize_rc` (src/deserialize.rs lines
166-177) on a hooked slot: clones the `Rc`, returning the shared buffer
and leaving the record with its strong count incremented. -/
def serializeRc (h : HookedFile) : HookedFile × MemFile :=
  ({ h with rc := h.rc + 1 }, h.data)


/-- The buffer produced by `reserve_additional(n - cap)` on a writable
`MemFile`, as `c_write` requests it when growth to total size `n`
exceeds the current capacity. -/
def reservedFile (d : MemFile) (n : Nat) : MemFile :=
  { d with vecCap := max d.vecCap (d.data.length + (n - d.cap)) }

/-! ### Helper lemmas -/

theorem MemFile.setLen_data (f : MemFile) (n : Nat) :
    (f.setLen n).data = f.data.take n ++ List.replicate (n - f.data.length) 0 := rfl

theorem MemFile.storeAt_data (f : MemFile) (ofst : Nat) (p : List Nat) :
    (f.storeAt ofst p).data = listStore f.data ofst p := rfl

theorem reservedFile_data (d : MemFile) (n : Nat) : (reservedFile d n).data = d.data := rfl

theorem reservedFile_vecCap (d : MemFile) (n : Nat) :
    (reservedFile d n).vecCap = max d.vecCap (d.data.length + (n - d.cap)) := rfl

theorem reservedFile_writable (d : MemFile) (n : Nat) :
    (reservedFile d n).writable = d.writable := rfl

theorem MemFile.cap_of_writable (d : MemFile) (hw : d.writable = true) :
    d.cap = d.vecCap := by
  cases hm : d.mode <;> simp [MemFile.cap, MemFile.writable, hm] at hw ⊢

theorem MemFile.reserveAdditional_of_not_writable (d : MemFile) (a : Nat)
    (hw : d.writable = false) :
    d.reserveAdditional a = none := by
  cases hm : d.mode <;> simp [MemFile.reserveAdditional, MemFile.writable, hm] at hw ⊢

theorem MemFile.reserve_eq_reservedFile (d : MemFile) (n : Nat) (hw : d.writable = true) :
    d.reserveAdditional (n - d.cap) = some (reservedFile d n) := by
  cases hm : d.mode <;>
    simp [MemFile.reserveAdditional, MemFile.writable, reservedFile, hm] at hw ⊢

theorem reservedFile_cap (d : MemFile) (n : Nat) (hw : d.writable = true) :
    (reservedFile d n).cap = max d.vecCap (d.data.length + (n - d.cap)) := by
  rw [MemFile.cap_of_writable]
  · rfl
  · rw [reservedFile_writable]; exact hw

theorem take_pad (l : List Nat) (n ofst : Nat) (hln : l.length ≤ n) (hon : ofst ≤ n) :
    (l ++ List.replicate (n - l.length) 0).take ofst
      = l.take ofst ++ List.replicate (ofst - l.length) 0 := by
  rw [List.take_append_eq_append_take, List.take_replicate]
  have : min (ofst - l.length) (n - l.length) = ofst - l.length := by omega
  rw [this]

theorem setLen_store_data (f : MemFile) (buf : List Nat) (ofst : Nat)
    (hgt : f.data.length ≤ ofst + buf.length) :
    ((f.setLen (ofst + buf.length)).storeAt ofst buf).data
      = f.data.take ofst ++ List.replicate (ofst - f.data.length) 0 ++ buf := by
  have hE : (f.setLen (ofst + buf.length)).data
      = f.data ++ List.replicate (ofst + buf.length - f.data.length) 0 := by
    rw [MemFile.setLen_data, List.take_of_length_le hgt]
  rw [MemFile.storeAt_data, hE, listStore]
  rw [take_pad _ _ _ hgt (by omega)]
  rw [List.drop_eq_nil_of_le
    (by simp only [List.length_append, List.length_replicate]; omega)]
  rw [List.append_nil]

theorem gapZeroFill_length (d : MemFile) (ofst : Nat) :
    (gapZeroFill d ofst).data.length = max d.data.length ofst := by
  rw [gapZeroFill]
  split_ifs with hsp
  · simp only [List.length_append, List.length_replicate]; omega
  · omega

theorem writeExtend_fst (h : HookedFile) (d : MemFile) (buf : List Nat) (ofst : Nat)
    (hw : d.writable = true) :
    (writeExtend h d buf ofst).1 = SQLITE_OK := by
  rw [writeExtend, if_pos hw]

theorem writeExtend_data (h : HookedFile) (d : MemFile) (buf : List Nat) (ofst : Nat)
    (hw : d.writable = true) (hgt : d.data.length < ofst + buf.length) :
    (writeExtend h d buf ofst).2.data.data
      = d.data.take ofst ++ List.replicate (ofst - d.data.length) 0 ++ buf := by
  rw [writeExtend, if_pos hw]
  show (((gapZeroFill d ofst).setLen (ofst + buf.length)).storeAt ofst buf).data = _
  rw [setLen_store_data _ _ _ (by rw [gapZeroFill_length]; omega)]
  by_cases hof : d.data.length < ofst
  · have hg : (gapZeroFill d ofst).data = d.data ++ List.replicate (ofst - d.data.length) 0 := by
      rw [gapZeroFill, if_pos hof]
    rw [hg, take_pad _ _ _ (le_of_lt hof) (le_refl ofst)]
    have hlen2 : (d.data ++ List.replicate (ofst - d.data.length) 0).length = ofst := by
      simp only [List.length_append, List.length_replicate]; omega
    rw [hlen2, Nat.sub_self]
    simp
  · have hg : gapZeroFill d ofst = d := by rw [gapZeroFill, if_neg hof]
    rw [hg]

theorem writeExtend_len (h : HookedFile) (d : MemFile) (buf : List Nat) (ofst : Nat)
    (hw : d.writable = true) (hgt : d.data.length < ofst + buf.length) :
    (writeExtend h d buf ofst).2.data.len = ofst + buf.length := by
  rw [MemFile.len, writeExtend_data h d buf ofst hw hgt]
  simp only [List.length_append, List.length_replicate, List.length_take]
  omega

/-- The growth path of `c_write` (memory-map and capacity checks passed,
reserve succeeded): what remains is the `size_max` comparison on the
reserved capacity, then the extend-and-copy tail. -/
theorem c_write_growth_eq (h : HookedFile) (buf : List Nat) (ofst : Nat)
    (hrc : h.rc = 1) (hl : h.data.len < ofst + buf.length)
    (hc : h.data.cap < ofst + buf.length) (hmm : ¬ 0 < h.memoryMapped)
    (hw : h.data.writable = true) :
    c_write h buf ofst
      = if h.sizeMax < (reservedFile h.data (ofst + buf.length)).cap
        then (SQLITE_FULL, { h with data := reservedFile h.data (ofst + buf.length) })
        else writeExtend h (reservedFile h.data (ofst + buf.length)) buf ofst := by
  rw [c_write, if_neg (show ¬ h.rc ≠ 1 by omega), if_pos hl, if_pos hc, if_neg hmm,
    MemFile.reserve_eq_reservedFile _ _ hw]

/-- Under exclusivity, writability and the growth checks, `c_write`
reduces to `writeExtend` on a buffer with the same contents. -/
theorem c_write_eq_writeExtend (h : HookedFile) (buf : List Nat) (ofst : Nat)
    (hrc : h.rc = 1) (hw : h.data.writable = true)
    (hl : h.data.len < ofst + buf.length)
    (hadm : ofst + buf.length ≤ h.data.cap
      ∨ (h.memoryMapped = 0
          ∧ max h.data.vecCap (h.data.len + (ofst + buf.length) - h.data.vecCap)
              ≤ h.sizeMax)) :
    ∃ d : MemFile, d.data = h.data.data ∧ d.writable = true
      ∧ c_write h buf ofst = writeExtend h d buf ofst := by
  by_cases hc : h.data.cap < ofst + buf.length
  · rcases hadm with h1 | ⟨hmm, hsz⟩
    · omega
    · have hcv : h.data.cap = h.data.vecCap := MemFile.cap_of_writable _ hw
      have hc' : h.data.vecCap < ofst + buf.length := by rw [← hcv]; exact hc
      simp only [MemFile.len] at hsz
      refine ⟨reservedFile h.data (ofst + buf.length), rfl, ?_, ?_⟩
      · rw [reservedFile_writable]; exact hw
      · rw [c_write_growth_eq h buf ofst hrc hl hc (by omega) hw]
        rw [if_neg (by rw [reservedFile_cap _ _ hw, hcv]; omega)]
  · exact ⟨h.data, rfl, hw,
      by rw [c_write, if_neg (show ¬ h.rc ≠ 1 by omega), if_pos hl, if_neg hc]⟩

/-- A write that is in range, or whose growth passes the capacity /
memory-map / size-limit checks, succeeds when the buffer is writable and
exclusively held. -/
theorem c_write_ok_of_admissible (h : HookedFile) (buf : List Nat) (ofst : Nat)
    (hrc : h.rc = 1) (hw : h.data.writable = true)
    (hadm : ofst + buf.length ≤ h.data.len
      ∨ ofst + buf.length ≤ h.data.cap
      ∨ (h.memoryMapped = 0
          ∧ max h.data.vecCap (h.data.len + (ofst + buf.length) - h.data.vecCap)
              ≤ h.sizeMax)) :
    (c_write h buf ofst).1 = SQLITE_OK := by
  by_cases hl : h.data.len < ofst + buf.length
  · have hrest : ofst + buf.length ≤ h.data.cap
        ∨ (h.memoryMapped = 0
            ∧ max h.data.vecCap (h.data.len + (ofst + buf.length) - h.data.vecCap)
                ≤ h.sizeMax) := by
      rcases hadm with h1 | h2 | h3
      · omega
      · exact Or.inl h2
      · exact Or.inr h3
    obtain ⟨d, _, hdw, heq⟩ := c_write_eq_writeExtend h buf ofst hrc hw hl hrest
    rw [heq]
    exact writeExtend_fst _ _ _ _ hdw
  · rw [c_write, if_neg (show ¬ h.rc ≠ 1 by omega), if_neg hl, if_pos hw]

/-! ### Claims -/

/-- Claim C1.  Round trip: `deserialize` installs a hooked file owning
exactly the given bytes, and `serialize` on a hooked slot returns a copy
of those bytes, so deserializing a vector `v` and re-serializing (with
no write/truncate entry point running in between) yields `some v`,
byte-identical; hence any serialized buffer deserialized on a fresh
schema re-serializes to identical content. -/
theorem serialize_deserialize_round_trip (v : List Nat) (vcap sm : Nat) :
    serializeSlot (some (deserializeHook v vcap sm)) = some v := rfl

/-- Claim C3.  Read past end: reading `amt` bytes at offset `ofst` on a
buffer of length `L` returns the short-read code with the first
`L - ofst` output bytes equal to the stored bytes at `[ofst, L)` and the
rest zero whenever `ofst + amt > L`; otherwise it returns success with
exactly the stored bytes at `[ofst, ofst + amt)`. -/
theorem read_past_end (h : HookedFile) (amt ofst : Nat) :
    (h.data.len < ofst + amt →
      c_read h amt ofst
        = (SQLITE_IOERR_SHORT_READ,
            (h.data.data.drop ofst).take (h.data.len - ofst)
              ++ List.replicate (amt - (h.data.len - ofst)) 0))
    ∧ (ofst + amt ≤ h.data.len →
      c_read h amt ofst = (SQLITE_OK, (h.data.data.drop ofst).take amt)) := by
  constructor
  · intro hlt
    rw [c_read, if_pos hlt]
    simp only [MemFile.len] at hlt ⊢
    by_cases hof : ofst < h.data.data.length
    · rw [if_pos hof, listStore, List.take_zero, List.nil_append, List.length_drop,
        Nat.zero_add, List.drop_replicate]
      rw [List.take_of_length_le
        (show (h.data.data.drop ofst).length ≤ h.data.data.length - ofst by
          rw [List.length_drop])]
    · rw [if_neg hof]
      have hd : h.data.data.drop ofst = [] := List.drop_eq_nil_of_le (by omega)
      have hz : h.data.data.length - ofst = 0 := by omega
      rw [hd, hz]
      simp
  · intro hle
    rw [c_read, if_neg (not_lt.2 hle)]

/-- Claim C7.  Truncate only shrinks: on an exclusively held writable
buffer, truncating beyond the current length fails with the full code
leaving the record unchanged, and truncating to `size ≤ length` succeeds
after which `c_size` reports exactly `size`. -/
theorem truncate_only_shrinks (h : HookedFile) (size : Nat)
    (hw : h.data.writable = true) (hrc : h.rc = 1) :
    (h.data.len < size → c_truncate h size = (SQLITE_FULL, h))
    ∧ (size ≤ h.data.len →
        (c_truncate h size).1 = SQLITE_OK
        ∧ c_size (c_truncate h size).2 = (SQLITE_OK, size)) := by
  have hget : h.getMut = some h.data := by
    rw [HookedFile.getMut, if_neg (by simp [hw]), if_pos hrc]
  have hkey : c_truncate h size
      = if h.data.len < size then (SQLITE_FULL, h)
        else (SQLITE_OK, { h with data := h.data.setLen size }) := by
    rw [c_truncate, hget]
  constructor
  · intro hgt
    rw [hkey, if_pos hgt]
  · intro hle
    rw [hkey, if_neg (not_lt.2 hle)]
    refine ⟨rfl, ?_⟩
    rw [c_size]
    have hlen : ({ h with data := h.data.setLen size } : HookedFile).data.len = size := by
      simp only [MemFile.len, MemFile.setLen_data, List.length_append,
        List.length_take, List.length_replicate]
      simp only [MemFile.len] at hle
      omega
    rw [hlen]

/-- Claim C8.  Size-limit negotiation: a negative requested limit
restores the previous cap, a non-negative limit below the current length
clamps to the length, any other limit is adopted; in every case the
adopted value is written back to the caller's argument and the call
returns success. -/
theorem size_limit_negotiation (h : HookedFile) (arg : Int) :
    (fileControlSizeLimit h arg).1 = SQLITE_OK
    ∧ (arg < 0 →
        (fileControlSizeLimit h arg).2.1.sizeMax = h.sizeMax
        ∧ (fileControlSizeLimit h arg).2.2 = (h.sizeMax : Int))
    ∧ (0 ≤ arg → arg < (h.data.len : Int) →
        (fileControlSizeLimit h arg).2.1.sizeMax = h.data.len
        ∧ (fileControlSizeLimit h arg).2.2 = (h.data.len : Int))
    ∧ ((h.data.len : Int) ≤ arg →
        (fileControlSizeLimit h arg).2.1.sizeMax = arg.toNat
        ∧ (fileControlSizeLimit h arg).2.2 = arg)
    ∧ (fileControlSizeLimit h arg).2.2
        = ((fileControlSizeLimit h arg).2.1.sizeMax : Int) := by
  have h0 : (0 : Int) ≤ (h.data.len : Int) := Int.natCast_nonneg _
  by_cases hlt : arg < (h.data.len : Int)
  · by_cases hneg : arg < 0
    · have hkey : fileControlSizeLimit h arg
          = (SQLITE_OK, { h with sizeMax := h.sizeMax }, (h.sizeMax : Int)) := by
        simp only [fileControlSizeLimit, if_pos hlt, if_pos hneg, Int.toNat_natCast]
      rw [hkey]
      exact ⟨rfl, fun _ => ⟨rfl, rfl⟩, fun hpos _ => absurd hneg (not_lt.2 hpos),
        fun hge => absurd hlt (not_lt.2 hge), rfl⟩
    · have hkey : fileControlSizeLimit h arg
          = (SQLITE_OK, { h with sizeMax := h.data.len }, (h.data.len : Int)) := by
        simp only [fileControlSizeLimit, if_pos hlt, if_neg hneg, Int.toNat_natCast]
      rw [hkey]
      exact ⟨rfl, fun hneg2 => absurd hneg2 hneg, fun _ _ => ⟨rfl, rfl⟩,
        fun hge => absurd hlt (not_lt.2 hge), rfl⟩
  · have hkey : fileControlSizeLimit h arg
        = (SQLITE_OK, { h with sizeMax := arg.toNat }, arg) := by
      simp only [fileControlSizeLimit, if_neg hlt]
    rw [hkey]
    refine ⟨rfl, fun hneg => absurd hneg (by omega), fun _ hlt2 => absurd hlt2 hlt,
      fun _ => ⟨rfl, rfl⟩, ?_⟩
    show arg = ((arg.toNat : Nat) : Int)
    exact (Int.toNat_of_nonneg (by omega)).symm

/-- Claim C10.  In-place write frame effect: a write of `buf` at `ofst`
with `ofst + buf.length ≤ length` on an exclusively held writable buffer
succeeds, replaces exactly the bytes `[ofst, ofst + buf.length)` by the
payload, and leaves every other byte, the length and the capacity
unchanged. -/
theorem write_in_place (h : HookedFile) (buf : List Nat) (ofst : Nat)
    (hrc : h.rc = 1) (hw : h.data.writable = true)
    (hle : ofst + buf.length ≤ h.data.len) :
    c_write h buf ofst
      = (SQLITE_OK, { h with data := { h.data with
          data := h.data.data.take ofst ++ buf
            ++ h.data.data.drop (ofst + buf.length) } })
    ∧ (c_write h buf ofst).2.data.len = h.data.len
    ∧ (c_write h buf ofst).2.data.cap = h.data.cap := by
  have h1 : c_write h buf ofst
      = (SQLITE_OK, { h with data := { h.data with
          data := h.data.data.take ofst ++ buf
            ++ h.data.data.drop (ofst + buf.length) } }) := by
    rw [c_write, if_neg (show ¬ h.rc ≠ 1 by omega), if_neg (not_lt.2 hle), if_pos hw]
    rfl
  refine ⟨h1, ?_, ?_⟩
  · rw [h1]
    simp only [MemFile.len, List.length_append, List.length_take, List.length_drop]
    simp only [MemFile.len] at hle
    omega
  · rw [h1]
    cases hm : h.data.mode
    case readOnly => rw [MemFile.writable, hm] at hw; cases hw
    case owned =>
      show MemFile.cap { h.data with
        data := h.data.data.take ofst ++ buf
          ++ h.data.data.drop (ofst + buf.length) } = h.data.cap
      rw [MemFile.cap, MemFile.cap]
      simp only [hm]
    case resizable =>
      show MemFile.cap { h.data with
        data := h.data.data.take ofst ++ buf
          ++ h.data.data.drop (ofst + buf.length) } = h.data.cap
      rw [MemFile.cap, MemFile.cap]
      simp only [hm]

/-- Claim C2, counterexample to the unconditional second half: a
writable buffer with reference count exactly 1 on which the very same
write still fails — here growth is needed but `size_max = 0`, so the
write returns the full code rather than succeeding. -/
def rcOneFullState : HookedFile :=
  { data := { mode := Mode.owned, data := [], vecCap := 0 }
    rc := 1
    sizeMax := 0
    memoryMapped := 0 }

/-- Claim C2 (counterexample): with the reference count back at one and
the buffer writable, the write does not necessarily succeed — it can
fail with the full code when the growth checks fail. -/
theorem exclusivity_drop_counterexample :
    rcOneFullState.rc = 1
    ∧ rcOneFullState.data.writable = true
    ∧ (c_write rcOneFullState [1] 0).1 = SQLITE_FULL
    ∧ (c_write rcOneFullState [1] 0).1 ≠ SQLITE_OK := by decide

/-- Claim C2 (amended).  While the reference count on the buffer handle
exceeds one, every write entry-point call returns the read-only code and
leaves the record (hence the buffer) unchanged; `serialize_rc` is what
increments that count; once the count is back to one and the buffer is
writable, the same write succeeds provided it passes the growth checks
(it fits in the current length or capacity, or no memory-map lease is
outstanding and the reserved capacity stays within `size_max`). -/
theorem exclusivity_refcount (h : HookedFile) (buf : List Nat) (ofst : Nat) :
    (1 < h.rc → c_write h buf ofst = (SQLITE_READONLY, h))
    ∧ (serializeRc h).1.rc = h.rc + 1
    ∧ (h.rc = 1 → h.data.writable = true →
        (ofst + buf.length ≤ h.data.len
          ∨ ofst + buf.length ≤ h.data.cap
          ∨ (h.memoryMapped = 0
              ∧ max h.data.vecCap (h.data.len + (ofst + buf.length) - h.data.vecCap)
                  ≤ h.sizeMax)) →
        (c_write h buf ofst).1 = SQLITE_OK) := by
  refine ⟨fun hgt => ?_, rfl,
    fun hrc hw hadm => c_write_ok_of_admissible h buf ofst hrc hw hadm⟩
  rw [c_write, if_pos (show h.rc ≠ 1 by omega)]

/-- Claim C2 (witness): concrete shared write rejected unchanged, and
the same write succeeding at count one. -/
def rcWitnessState : HookedFile :=
  { data := { mode := Mode.owned, data := [5], vecCap := 1 }
    rc := 1
    sizeMax := 1
    memoryMapped := 0 }

theorem exclusivity_refcount_witness :
    c_write { rcWitnessState with rc := 2 } [7] 0
      = (SQLITE_READONLY, { rcWitnessState with rc := 2 })
    ∧ (c_write rcWitnessState [7] 0).1 = SQLITE_OK :=
  ⟨(exclusivity_refcount { rcWitnessState with rc := 2 } [7] 0).1 (by decide),
   (exclusivity_refcount rcWitnessState [7] 0).2.2 (by decide) (by decide)
     (Or.inl (by decide))⟩

/-- Claim C4.  Growth zero-fill: a successful write of `buf` at offset
`ofst` beyond the current length `L < ofst` (growth checks passing, the
buffer writable and exclusively held) leaves bytes `[0, L)` unchanged,
bytes `[L, ofst)` zero, bytes `[ofst, ofst + buf.length)` equal to the
payload, the new length `ofst + buf.length`, and returns success. -/
theorem growth_zero_fill (h : HookedFile) (buf : List Nat) (ofst : Nat)
    (hrc : h.rc = 1) (hw : h.data.writable = true)
    (hlt : h.data.len < ofst)
    (hchk : ofst + buf.length ≤ h.data.cap
      ∨ (h.memoryMapped = 0
          ∧ max h.data.vecCap (h.data.len + (ofst + buf.length) - h.data.vecCap)
              ≤ h.sizeMax)) :
    (c_write h buf ofst).1 = SQLITE_OK
    ∧ (c_write h buf ofst).2.data.data
        = h.data.data ++ List.replicate (ofst - h.data.len) 0 ++ buf
    ∧ (c_write h buf ofst).2.data.len = ofst + buf.length := by
  have hl : h.data.len < ofst + buf.length := by omega
  obtain ⟨d, hdd, hdw, heq⟩ := c_write_eq_writeExtend h buf ofst hrc hw hl hchk
  have hgt : d.data.length < ofst + buf.length := by
    rw [hdd]; simp only [MemFile.len] at hl; exact hl
  refine ⟨by rw [heq]; exact writeExtend_fst _ _ _ _ hdw, ?_, ?_⟩
  · rw [heq, writeExtend_data _ _ _ _ hdw hgt, hdd]
    rw [List.take_of_length_le (by simp only [MemFile.len] at hlt; omega)]
    rfl
  · rw [heq, writeExtend_len _ _ _ _ hdw hgt]

/-- Claim C4 (witness): writing one byte at offset 3 of a one-byte file
zero-fills the gap. -/
def growState : HookedFile :=
  { data := { mode := Mode.owned, data := [9], vecCap := 4 }
    rc := 1
    sizeMax := 10
    memoryMapped := 0 }

theorem growth_zero_fill_witness :
    (c_write growState [7] 3).1 = SQLITE_OK
    ∧ (c_write growState [7] 3).2.data.data
        = growState.data.data ++ List.replicate (3 - growState.data.len) 0 ++ [7]
    ∧ (c_write growState [7] 3).2.data.len = 3 + [7].length :=
  growth_zero_fill growState [7] 3 (by decide) (by decide) (by decide)
    (Or.inl (by decide))

/-- Claim C5 (counterexample): truncating a `ReadOnly` buffer whose
reference count is exactly one fails with the full code, not the
read-only code. -/
def roState : HookedFile :=
  { data := { mode := Mode.readOnly, data := [1], vecCap := 0 }
    rc := 1
    sizeMax := 10
    memoryMapped := 0 }

theorem readonly_code_counterexample :
    roState.data.mode = Mode.readOnly
    ∧ roState.rc = 1
    ∧ (c_truncate roState 0).1 = SQLITE_FULL
    ∧ (c_truncate roState 0).1 ≠ SQLITE_READONLY := by decide

/-- Claim C5 (amended).  Every write or truncate entry-point call on a
`ReadOnly` buffer fails and leaves the record unchanged, but the
returned code is the read-only code only when the write finds the handle
shared (count ≠ 1): truncate always returns the full code, and with the
count exactly one a write past the current length returns the full code
while an in-place write returns the generic error code (the caught
panic of `as_mut_slice`). -/
theorem readonly_rejection (h : HookedFile) (buf : List Nat) (ofst size : Nat)
    (hm : h.data.mode = Mode.readOnly) :
    c_truncate h size = (SQLITE_FULL, h)
    ∧ (c_write h buf ofst).2 = h
    ∧ (c_write h buf ofst).1 ≠ SQLITE_OK
    ∧ (h.rc ≠ 1 → (c_write h buf ofst).1 = SQLITE_READONLY)
    ∧ (h.rc = 1 → h.data.len < ofst + buf.length →
        (c_write h buf ofst).1 = SQLITE_FULL)
    ∧ (h.rc = 1 → ofst + buf.length ≤ h.data.len →
        (c_write h buf ofst).1 = SQLITE_ERROR) := by
  have hwf : h.data.writable = false := by
    rw [MemFile.writable, hm]
  have hcaplen : h.data.cap = h.data.len := by
    rw [MemFile.cap, hm, MemFile.len]
  have hget : h.getMut = none := by
    rw [HookedFile.getMut, if_pos (by simp [hwf])]
  have hkey : c_write h buf ofst
      = ((if h.rc = 1
          then (if h.data.len < ofst + buf.length then SQLITE_FULL else SQLITE_ERROR)
          else SQLITE_READONLY), h) := by
    by_cases hrc : h.rc = 1
    · rw [if_pos hrc]
      by_cases hl : h.data.len < ofst + buf.length
      · rw [if_pos hl]
        have hcc : h.data.cap < ofst + buf.length := by rw [hcaplen]; exact hl
        by_cases hmm : 0 < h.memoryMapped
        · rw [c_write, if_neg (show ¬ h.rc ≠ 1 by omega), if_pos hl, if_pos hcc,
            if_pos hmm]
        · rw [c_write, if_neg (show ¬ h.rc ≠ 1 by omega), if_pos hl, if_pos hcc,
            if_neg hmm, MemFile.reserveAdditional_of_not_writable _ _ hwf]
      · rw [if_neg hl, c_write, if_neg (show ¬ h.rc ≠ 1 by omega), if_neg hl,
          if_neg (by simp [hwf])]
    · rw [if_neg hrc, c_write, if_pos (show h.rc ≠ 1 from hrc)]
  refine ⟨by rw [c_truncate, hget], by rw [hkey], ?_, ?_, ?_, ?_⟩
  · rw [hkey]
    dsimp only
    split_ifs <;> decide
  · intro hrc1
    rw [hkey]
    dsimp only
    rw [if_neg hrc1]
  · intro hrc1 hl
    rw [hkey]
    dsimp only
    rw [if_pos hrc1, if_pos hl]
  · intro hrc1 hle
    rw [hkey]
    dsimp only
    rw [if_pos hrc1, if_neg (not_lt.2 hle)]

/-- Claim C5 (witness): concrete read-only rejections with their actual
codes. -/
def roWitnessState : HookedFile :=
  { data := { mode := Mode.readOnly, data := [1, 2], vecCap := 0 }
    rc := 1
    sizeMax := 10
    memoryMapped := 0 }

theorem readonly_rejection_witness :
    c_truncate roWitnessState 0 = (SQLITE_FULL, roWitnessState)
    ∧ (c_write roWitnessState [7] 0).2 = roWitnessState
    ∧ (c_write roWitnessState [7] 0).1 ≠ SQLITE_OK :=
  ⟨(readonly_rejection roWitnessState [7] 0 0 (by decide)).1,
   (readonly_rejection roWitnessState [7] 0 0 (by decide)).2.1,
   (readonly_rejection roWitnessState [7] 0 0 (by decide)).2.2.1⟩

/-- Claim C3 (witness): a concrete short read. -/
def readState : HookedFile :=
  { data := { mode := Mode.owned, data := [1, 2, 3], vecCap := 3 }
    rc := 1
    sizeMax := 10
    memoryMapped := 0 }

theorem read_past_end_witness :
    readState.data.len < 1 + 4
    ∧ c_read readState 4 1
        = (SQLITE_IOERR_SHORT_READ,
            (readState.data.data.drop 1).take (readState.data.len - 1)
              ++ List.replicate (4 - (readState.data.len - 1)) 0) :=
  ⟨by decide, (read_past_end readState 4 1).1 (by decide)⟩

/-- Claim C7 (witness): a concrete shrinking truncate followed by a size
query. -/
def truncState : HookedFile :=
  { data := { mode := Mode.owned, data := [1, 2, 3], vecCap := 3 }
    rc := 1
    sizeMax := 10
    memoryMapped := 0 }

theorem truncate_only_shrinks_witness :
    2 ≤ truncState.data.len
    ∧ ((c_truncate truncState 2).1 = SQLITE_OK
        ∧ c_size (c_truncate truncState 2).2 = (SQLITE_OK, 2)) :=
  ⟨by decide, (truncate_only_shrinks truncState 2 (by decide) (by decide)).2 (by decide)⟩

/-- Claim C8 (witness): a concrete negative request restoring the
previous cap. -/
def slState : HookedFile :=
  { data := { mode := Mode.owned, data := [1, 2, 3], vecCap := 3 }
    rc := 1
    sizeMax := 77
    memoryMapped := 0 }

theorem size_limit_negotiation_witness :
    (-1 : Int) < 0
    ∧ ((fileControlSizeLimit slState (-1)).2.1.sizeMax = slState.sizeMax
        ∧ (fileControlSizeLimit slState (-1)).2.2 = (slState.sizeMax : Int)) :=
  ⟨by decide, (size_limit_negotiation slState (-1)).2.1 (by decide)⟩

/-- Claim C10 (witness): a concrete in-place write. -/
def wpState : HookedFile :=
  { data := { mode := Mode.owned, data := [1, 2, 3], vecCap := 3 }
    rc := 1
    sizeMax := 10
    memoryMapped := 0 }

theorem write_in_place_witness :
    c_write wpState [9] 1
      = (SQLITE_OK, { wpState with data := { wpState.data with
          data := wpState.data.data.take 1 ++ [9]
            ++ wpState.data.data.drop (1 + [9].length) } })
    ∧ (c_write wpState [9] 1).2.data.len = wpState.data.len
    ∧ (c_write wpState [9] 1).2.data.cap = wpState.data.cap :=
  write_in_place wpState [9] 1 (by decide) (by decide) (by decide)

/-- Claim C6 (counterexample): a write whose resulting length (5)
exceeds `size_max` (2) succeeds when it fits inside the current
capacity — the size limit is only consulted when growth beyond capacity
is needed, and then against the capacity, not the length. -/
def slcState : HookedFile :=
  { data := { mode := Mode.owned, data := [], vecCap := 10 }
    rc := 1
    sizeMax := 2
    memoryMapped := 0 }

theorem size_limit_length_counterexample :
    slcState.sizeMax = 2
    ∧ slcState.sizeMax < 0 + [7, 7, 7, 7, 7].length
    ∧ (c_write slcState [7, 7, 7, 7, 7] 0).1 = SQLITE_OK
    ∧ (c_write slcState [7, 7, 7, 7, 7] 0).2.data.len = 5
    ∧ (c_write slcState [7, 7, 7, 7, 7] 0).1 ≠ SQLITE_FULL := by decide

/-- Claim C6 (amended).  Size-limit enforcement: a write that needs
growth beyond the current capacity fails with the full code when the
capacity after reserving would exceed `size_max`; after a size-limit
file-control call raising the cap sufficiently (at least capacity plus
the requested end), the same write succeeds.  (A write whose resulting
length exceeds `size_max` but fits in the current capacity is not
checked against the limit at all.) -/
theorem size_limit_enforcement (h : HookedFile) (buf : List Nat) (ofst : Nat) (M : Nat)
    (hrc : h.rc = 1) (hw : h.data.writable = true) (hmm : h.memoryMapped = 0)
    (hinv : h.data.len ≤ h.data.vecCap)
    (hgrow : h.data.cap < ofst + buf.length)
    (hfail : h.sizeMax
        < max h.data.vecCap (h.data.len + (ofst + buf.length) - h.data.vecCap))
    (hM : h.data.vecCap + (ofst + buf.length) ≤ M) :
    (c_write h buf ofst).1 = SQLITE_FULL
    ∧ (fileControlSizeLimit (c_write h buf ofst).2 (M : Int)).2.1.sizeMax = M
    ∧ (c_write (fileControlSizeLimit (c_write h buf ofst).2 (M : Int)).2.1 buf ofst).1
        = SQLITE_OK := by
  have hcv : h.data.cap = h.data.vecCap := MemFile.cap_of_writable _ hw
  have hc' : h.data.vecCap < ofst + buf.length := by rw [← hcv]; exact hgrow
  simp only [MemFile.len] at hinv hfail
  have hl : h.data.len < ofst + buf.length := by
    simp only [MemFile.len]; omega
  have hsz : h.sizeMax < (reservedFile h.data (ofst + buf.length)).cap := by
    rw [reservedFile_cap _ _ hw, hcv]
    omega
  have hw1 : c_write h buf ofst
      = (SQLITE_FULL, { h with data := reservedFile h.data (ofst + buf.length) }) := by
    rw [c_write_growth_eq h buf ofst hrc hl hgrow (by omega) hw, if_pos hsz]
  have hM0 : ¬ ((M : Int)
      < (({ h with data := reservedFile h.data (ofst + buf.length) } : HookedFile).data.len
          : Int)) := by
    simp only [MemFile.len, reservedFile_data]
    omega
  have hfc : fileControlSizeLimit
        { h with data := reservedFile h.data (ofst + buf.length) } (M : Int)
      = (SQLITE_OK,
          { h with data := reservedFile h.data (ofst + buf.length), sizeMax := M },
          (M : Int)) := by
    simp only [fileControlSizeLimit, if_neg hM0, Int.toNat_natCast]
  refine ⟨by rw [hw1], ?_, ?_⟩
  · rw [hw1]
    dsimp only
    rw [hfc]
  · rw [hw1]
    dsimp only
    rw [hfc]
    refine c_write_ok_of_admissible _ buf ofst hrc hw (Or.inr (Or.inr ⟨hmm, ?_⟩))
    dsimp only
    simp only [MemFile.len, reservedFile_data, reservedFile_vecCap, hcv]
    omega

/-- Claim C6 (witness): a concrete failing write permitted after the
limit is raised. -/
def slwState : HookedFile :=
  { data := { mode := Mode.owned, data := [], vecCap := 0 }
    rc := 1
    sizeMax := 0
    memoryMapped := 0 }

theorem size_limit_enforcement_witness :
    (c_write slwState [7] 0).1 = SQLITE_FULL
    ∧ (fileControlSizeLimit (c_write slwState [7] 0).2 ((1 : Nat) : Int)).2.1.sizeMax = 1
    ∧ (c_write (fileControlSizeLimit (c_write slwState [7] 0).2 ((1 : Nat) : Int)).2.1
        [7] 0).1 = SQLITE_OK :=
  size_limit_enforcement slwState [7] 0 1 (by decide) (by decide) (by decide)
    (by decide) (by decide) (by decide) (by decide)

/-- Claim C9 (counterexample): a write rejected with the full code by
the `size_max` check has already grown the capacity via the successful
reserve — the capacity is not the same as before the call. -/
def capState : HookedFile :=
  { data := { mode := Mode.owned, data := [], vecCap := 0 }
    rc := 1
    sizeMax := 0
    memoryMapped := 0 }

theorem write_full_capacity_counterexample :
    (c_write capState [7] 0).1 = SQLITE_FULL
    ∧ capState.data.cap = 0
    ∧ (c_write capState [7] 0).2.data.cap = 1
    ∧ (c_write capState [7] 0).2.data.cap ≠ capState.data.cap := by decide

/-- Claim C9 (amended).  Write failure atomicity up to capacity: every
write entry-point call returning the full code leaves the buffer's
contents (hence its length), mode, reference count, `size_max` and
memory-map count unchanged; when the failure is due to an outstanding
memory-map lease or a failed reserve (read-only buffer) the record is
entirely unchanged, but when the reserve succeeded and the resulting
capacity exceeded `size_max`, the capacity may have grown. -/
theorem write_full_preserves_contents (h : HookedFile) (buf : List Nat) (ofst : Nat)
    (hFull : (c_write h buf ofst).1 = SQLITE_FULL) :
    (c_write h buf ofst).2.data.data = h.data.data
    ∧ (c_write h buf ofst).2.data.mode = h.data.mode
    ∧ (c_write h buf ofst).2.rc = h.rc
    ∧ (c_write h buf ofst).2.sizeMax = h.sizeMax
    ∧ (c_write h buf ofst).2.memoryMapped = h.memoryMapped
    ∧ ((0 < h.memoryMapped ∨ h.data.writable = false) → (c_write h buf ofst).2 = h) := by
  by_cases hrc : h.rc = 1
  case neg =>
    rw [c_write, if_pos (show h.rc ≠ 1 from hrc)] at hFull
    simp [SQLITE_READONLY, SQLITE_FULL] at hFull
  case pos =>
    by_cases hl : h.data.len < ofst + buf.length
    case neg =>
      rw [c_write, if_neg (show ¬ h.rc ≠ 1 by omega), if_neg hl] at hFull
      by_cases hwb : h.data.writable = true
      · rw [if_pos hwb] at hFull
        simp [SQLITE_OK, SQLITE_FULL] at hFull
      · rw [if_neg hwb] at hFull
        simp [SQLITE_ERROR, SQLITE_FULL] at hFull
    case pos =>
      by_cases hc : h.data.cap < ofst + buf.length
      case neg =>
        rw [c_write, if_neg (show ¬ h.rc ≠ 1 by omega), if_pos hl, if_neg hc] at hFull
        by_cases hwb : h.data.writable = true
        · rw [writeExtend_fst _ _ _ _ hwb] at hFull
          exact absurd hFull (by decide)
        · have hext : writeExtend h h.data buf ofst = (SQLITE_ERROR, h) := by
            rw [writeExtend, if_neg hwb]
          rw [hext] at hFull
          simp [SQLITE_ERROR, SQLITE_FULL] at hFull
      case pos =>
        by_cases hmm : 0 < h.memoryMapped
        · have hcw : c_write h buf ofst = (SQLITE_FULL, h) := by
            rw [c_write, if_neg (show ¬ h.rc ≠ 1 by omega), if_pos hl, if_pos hc,
              if_pos hmm]
          rw [hcw]
          exact ⟨rfl, rfl, rfl, rfl, rfl, fun _ => rfl⟩
        · by_cases hwb : h.data.writable = true
          · rw [c_write_growth_eq h buf ofst hrc hl hc hmm hwb] at hFull ⊢
            by_cases hsz : h.sizeMax < (reservedFile h.data (ofst + buf.length)).cap
            · rw [if_pos hsz] at hFull ⊢
              refine ⟨rfl, rfl, rfl, rfl, rfl, fun hcontra => ?_⟩
              rcases hcontra with hcmm | hcw
              · exact absurd hcmm hmm
              · rw [hwb] at hcw
                cases hcw
            · rw [if_neg hsz] at hFull
              rw [writeExtend_fst _ _ _ _ (by rw [reservedFile_writable]; exact hwb)]
                at hFull
              exact absurd hFull (by decide)
          · have hwf : h.data.writable = false := by
              revert hwb
              cases h.data.writable <;> simp
            have hcw : c_write h buf ofst = (SQLITE_FULL, h) := by
              rw [c_write, if_neg (show ¬ h.rc ≠ 1 by omega), if_pos hl, if_pos hc,
                if_neg hmm, MemFile.reserveAdditional_of_not_writable _ _ hwf]
            rw [hcw]
            exact ⟨rfl, rfl, rfl, rfl, rfl, fun _ => rfl⟩

/-- Claim C9 (witness): a write rejected by an outstanding memory-map
lease leaves the contents unchanged. -/
def mmState : HookedFile :=
  { data := { mode := Mode.owned, data := [], vecCap := 0 }
    rc := 1
    sizeMax := 5
    memoryMapped := 1 }

theorem write_full_preserves_contents_witness :
    (c_write mmState [7] 0).1 = SQLITE_FULL
    ∧ (c_write mmState [7] 0).2.data.data = mmState.data.data :=
  ⟨by decide, (write_full_preserves_contents mmState [7] 0 (by decide)).1⟩
